import Mathlib

/-!
Verification of the cztenis-scraper core against its specification.

Strings from the TypeScript source are embedded as `List Char`; the JS string
operations used by the code (trim, toLowerCase, split, includes, replace of the
tiebreak pattern, parseInt) are modelled character by character below.
-/

namespace CzTenis

/-- The whitespace characters relevant to JS `trim` / the regex class. -/
def wsChar (c : Char) : Bool :=
  c == ' ' || c == '\t' || c == '\n' || c == '\r'

/-- JS `String.prototype.trim`: drop whitespace from both ends. -/
def jsTrim (l : List Char) : List Char :=
  ((l.dropWhile wsChar).reverse.dropWhile wsChar).reverse

/-- JS `toLowerCase` on one character. `Char.toLower` covers the ASCII range;
the only non-ASCII letter occurring in the walkover vocabulary is `Č`/`č`. -/
def lowChar (c : Char) : Char :=
  if c = 'Č' then 'č' else c.toLower

/-- JS `String.prototype.toLowerCase`, character-wise. -/
def jsToLower (l : List Char) : List Char :=
  l.map lowChar

/-- JS `String.prototype.split` on a single separator character.
`"".split(c)` yields `[""]`, so the result is never empty. -/
def splitChar (sep : Char) (l : List Char) : List (List Char) :=
  l.foldr
    (fun c acc =>
      if c = sep then [] :: acc
      else
        match acc with
        | h :: t => (c :: h) :: t
        | [] => [[c]])
    [[]]

/-- JS `String.prototype.includes` for a fixed needle (substring test). -/
def containsSub (needle : List Char) : List Char → Bool
  | [] => needle.isEmpty
  | c :: rest => needle.isPrefixOf (c :: rest) || containsSub needle rest

/-- Membership of a single character (JS `includes(":")` and the like). -/
def containsChar (c : Char) (l : List Char) : Bool :=
  l.any (fun x => x == c)

/-- String literal helper: the character list of a Lean string literal. -/
def s2l (s : String) : List Char := s.data

/-- Numeric value of a digit run. -/
def digitsVal (ds : List Char) : Nat :=
  ds.foldl (fun a c => a * 10 + (c.toNat - '0'.toNat)) 0

/-- JS `parseInt(x, 10)`: skip leading whitespace, optional sign, then the
leading digit run; `none` models `NaN` (no digits). -/
def jsParseInt (l : List Char) : Option Int :=
  let t := l.dropWhile wsChar
  match t with
  | '-' :: r =>
      let ds := r.takeWhile Char.isDigit
      if ds.isEmpty then none else some (-(digitsVal ds : Int))
  | '+' :: r =>
      let ds := r.takeWhile Char.isDigit
      if ds.isEmpty then none else some ((digitsVal ds : Int))
  | _ =>
      let ds := t.takeWhile Char.isDigit
      if ds.isEmpty then none else some ((digitsVal ds : Int))

/-- The source's `parseInt(g.trim(), 10)` followed by `isNaN(parsed) ? 0 : parsed`. -/
def jsIntOrZero (l : List Char) : Int :=
  (jsParseInt (jsTrim l)).getD 0

/-- Try to match the regex `\s*\(\d+\)` at the start of `l`; on success return
the remainder after the match. The match is deterministic: the greedy `\s*`
must be followed by `(`, and the greedy `\d+` must be followed by `)`. -/
def tryTiebreak (l : List Char) : Option (List Char) :=
  let rest := l.dropWhile wsChar
  match rest with
  | '(' :: r2 =>
      let ds := r2.takeWhile Char.isDigit
      if ds.isEmpty then none
      else
        match r2.dropWhile Char.isDigit with
        | ')' :: r4 => some r4
        | _ => none
  | _ => none

/-- JS `setScore.replace(/\s*\(\d+\)/, '')`: remove the leftmost occurrence of
the tiebreak pattern, if any. -/
def removeTiebreak : List Char → List Char
  | [] => []
  | c :: rest =>
      match tryTiebreak (c :: rest) with
      | some r => r
      | none => c :: removeTiebreak rest

/-- The walkover marker `"scr."` tested by `determineWinnerFromScore` and
`parseScore`. -/
def scrMark : List Char := s2l "scr."

/-- One set's game counts, as computed inside the loops of
`determineWinnerFromScore` and `parseScoreDetails` (src/utils/score-constants.ts):
strip the tiebreak, trim, skip the set when no `:` is present, otherwise
split on `:` and parse the first two fields with `parseInt` (`NaN` becomes 0). -/
def setGames (setScore : List Char) : Option (Int × Int) :=
  let cleanSet := jsTrim (removeTiebreak setScore)
  if containsChar ':' cleanSet then
    match splitChar ':' cleanSet with
    | l :: r :: _ => some (jsIntOrZero l, jsIntOrZero r)
    | _ => some (0, 0)
  else none

/-- The per-set tally step of `determineWinnerFromScore`: the side with
strictly more games wins the set; equal game counts credit neither side. -/
def setStep (acc : Nat × Nat) (setScore : List Char) : Nat × Nat :=
  match setGames setScore with
  | none => acc
  | some (lg, rg) =>
      if lg > rg then (acc.1 + 1, acc.2)
      else if rg > lg then (acc.1, acc.2 + 1)
      else acc

/-- `determineWinnerFromScore` from src/utils/score-constants.ts. -/
def determineWinnerFromScore (score : List Char) (leftPlayerIsMe : Bool) : Bool :=
  let trimmedScore := jsTrim score
  if (trimmedScore == scrMark || containsSub scrMark trimmedScore) then
    leftPlayerIsMe
  else
    let sets := (splitChar ',' trimmedScore).map jsTrim
    let tally := sets.foldl setStep (0, 0)
    let leftPlayerWonMatch : Bool := tally.1 > tally.2
    if leftPlayerIsMe then leftPlayerWonMatch else !leftPlayerWonMatch

/-- `isWalkoverScore` from src/utils/score-constants.ts: lowercase, trim, then
test `scr.` as a substring and `w.o.` / `def.` / `ret.` by exact equality. -/
def isWalkoverScore (score : List Char) : Bool :=
  let lower := jsTrim (jsToLower score)
  lower == scrMark || containsSub scrMark lower ||
    lower == s2l "w.o." || lower == s2l "def." || lower == s2l "ret."

/-- Winner tag of one parsed set in `parseScoreDetails`. -/
inductive SetSide
  | left
  | right
  | tie
deriving DecidableEq

/-- Winner tag of the whole score in `parseScoreDetails`. -/
inductive MatchSide
  | left
  | right
  | unknown
deriving DecidableEq

/-- One entry of the `sets` array built by `parseScoreDetails`. -/
structure SetDetail where
  left : Int
  right : Int
  winner : SetSide
deriving DecidableEq

/-- The record returned by `parseScoreDetails`. -/
structure ScoreDetails where
  sets : List SetDetail
  leftSetsWon : Nat
  rightSetsWon : Nat
  winner : MatchSide
deriving DecidableEq

/-- The loop body of `parseScoreDetails`: record every parsed set together
with its winner tag and bump the matching counter. -/
def detailStep (acc : List SetDetail × Nat × Nat) (setScore : List Char) :
    List SetDetail × Nat × Nat :=
  match setGames setScore with
  | none => acc
  | some (lg, rg) =>
      if lg > rg then (acc.1 ++ [⟨lg, rg, SetSide.left⟩], acc.2.1 + 1, acc.2.2)
      else if rg > lg then (acc.1 ++ [⟨lg, rg, SetSide.right⟩], acc.2.1, acc.2.2 + 1)
      else (acc.1 ++ [⟨lg, rg, SetSide.tie⟩], acc.2.1, acc.2.2)

/-- `parseScoreDetails` from src/utils/score-constants.ts. -/
def parseScoreDetails (score : List Char) : ScoreDetails :=
  let trimmedScore := jsTrim score
  if isWalkoverScore trimmedScore then
    ⟨[], 0, 0, MatchSide.unknown⟩
  else
    let sets := (splitChar ',' trimmedScore).map jsTrim
    let res := sets.foldl detailStep ([], 0, 0)
    let winner :=
      if res.2.1 > res.2.2 then MatchSide.left
      else if res.2.2 > res.2.1 then MatchSide.right
      else MatchSide.unknown
    ⟨res.1, res.2.1, res.2.2, winner⟩




/-- Spec-side view of one parsed set: the winner tag a game pair should get. -/
def mkDetail (p : Int × Int) : SetDetail :=
  ⟨p.1, p.2,
    if p.1 > p.2 then SetSide.left
    else if p.2 > p.1 then SetSide.right
    else SetSide.tie⟩

theorem foldl_setStep (l : List (List Char)) (a b : Nat) :
    l.foldl setStep (a, b) =
      (a + ((l.filterMap setGames).filter fun p => decide (p.1 > p.2)).length,
       b + ((l.filterMap setGames).filter fun p => decide (p.2 > p.1)).length) := by
  induction l generalizing a b with
  | nil => simp
  | cons x xs ih =>
    simp only [List.foldl_cons, List.filterMap_cons]
    cases hx : setGames x with
    | none => simp [setStep, hx, ih a b]
    | some p =>
      obtain ⟨lg, rg⟩ := p
      rcases lt_trichotomy lg rg with h | h | h
      · have h1 : ¬ lg > rg := by omega
        have h2 : rg > lg := h
        simp only [setStep, hx, if_neg h1, if_pos h2, ih, List.filter_cons]
        simp [h1, h2]
        omega
      · have h1 : ¬ lg > rg := by omega
        have h2 : ¬ rg > lg := by omega
        simp only [setStep, hx, if_neg h1, if_neg h2, ih, List.filter_cons]
        simp [h1, h2]
      · have h2 : ¬ rg > lg := by omega
        simp only [setStep, hx, if_pos h, ih, List.filter_cons]
        simp [h, h2]
        omega

theorem foldl_detailStep (l : List (List Char)) (ds : List SetDetail) (a b : Nat) :
    l.foldl detailStep (ds, a, b) =
      (ds ++ (l.filterMap setGames).map mkDetail,
       a + ((l.filterMap setGames).filter fun p => decide (p.1 > p.2)).length,
       b + ((l.filterMap setGames).filter fun p => decide (p.2 > p.1)).length) := by
  induction l generalizing ds a b with
  | nil => simp
  | cons x xs ih =>
    simp only [List.foldl_cons, List.filterMap_cons]
    cases hx : setGames x with
    | none => simp [detailStep, hx, ih]
    | some p =>
      obtain ⟨lg, rg⟩ := p
      rcases lt_trichotomy lg rg with h | h | h
      · have h1 : ¬ lg > rg := by omega
        have h2 : rg > lg := h
        simp only [detailStep, hx, if_neg h1, if_pos h2, ih, List.filter_cons,
          List.map_cons, mkDetail]
        simp [h1, h2]
        omega
      · have h1 : ¬ lg > rg := by omega
        have h2 : ¬ rg > lg := by omega
        simp only [detailStep, hx, if_neg h1, if_neg h2, ih, List.filter_cons,
          List.map_cons, mkDetail]
        simp [h1, h2]
      · have h2 : ¬ rg > lg := by omega
        simp only [detailStep, hx, if_pos h, ih, List.filter_cons,
          List.map_cons, mkDetail]
        simp [h, h2]
        omega

end CzTenis

namespace CzTenis


/-- Game pairs extracted from a score string by the shared per-set logic. -/
def gamePairs (s : List Char) : List (Int × Int) :=
  ((splitChar ',' (jsTrim s)).map jsTrim).filterMap setGames

/-- Number of sets credited to the left side. -/
def leftCount (s : List Char) : Nat :=
  ((gamePairs s).filter fun p => decide (p.1 > p.2)).length

/-- Number of sets credited to the right side. -/
def rightCount (s : List Char) : Nat :=
  ((gamePairs s).filter fun p => decide (p.2 > p.1)).length

theorem parseScoreDetails_not_walkover (s : List Char)
    (h2 : isWalkoverScore (jsTrim s) = false) :
    parseScoreDetails s =
      { sets := (gamePairs s).map mkDetail
        leftSetsWon := leftCount s
        rightSetsWon := rightCount s
        winner :=
          if leftCount s > rightCount s then MatchSide.left
          else if rightCount s > leftCount s then MatchSide.right
          else MatchSide.unknown } := by
  simp only [parseScoreDetails, h2, Bool.false_eq_true, if_false, foldl_detailStep,
    List.nil_append, Nat.zero_add, gamePairs, leftCount, rightCount]

theorem determineWinner_not_walkover (s : List Char) (b : Bool)
    (h1 : (jsTrim s == scrMark || containsSub scrMark (jsTrim s)) = false) :
    determineWinnerFromScore s b =
      if b then decide (leftCount s > rightCount s)
      else !(decide (leftCount s > rightCount s)) := by
  simp only [determineWinnerFromScore, h1, Bool.false_eq_true, if_false,
    foldl_setStep, Nat.zero_add, gamePairs, leftCount, rightCount]

theorem C1_winner_by_set_majority (s : List Char) (side : Bool)
    (h1 : (jsTrim s == scrMark || containsSub scrMark (jsTrim s)) = false)
    (h2 : isWalkoverScore (jsTrim s) = false) :
    (∀ st ∈ (parseScoreDetails s).sets,
        (st.winner = SetSide.left ↔ st.left > st.right) ∧
        (st.winner = SetSide.right ↔ st.right > st.left)) ∧
    (parseScoreDetails s).leftSetsWon
        = ((parseScoreDetails s).sets.filter fun st => decide (st.left > st.right)).length ∧
    (parseScoreDetails s).rightSetsWon
        = ((parseScoreDetails s).sets.filter fun st => decide (st.right > st.left)).length ∧
    ((parseScoreDetails s).leftSetsWon > (parseScoreDetails s).rightSetsWon →
        determineWinnerFromScore s side = side) ∧
    ((parseScoreDetails s).rightSetsWon > (parseScoreDetails s).leftSetsWon →
        determineWinnerFromScore s side = !side) ∧
    determineWinnerFromScore s true = !(determineWinnerFromScore s false) := by
  rw [parseScoreDetails_not_walkover s h2]
  refine ⟨?_, ?_, ?_, ?_, ?_, ?_⟩
  · intro st hst
    simp only at hst
    obtain ⟨p, hp, rfl⟩ := List.mem_map.mp hst
    obtain ⟨lg, rg⟩ := p
    rcases lt_trichotomy lg rg with h | h | h
    · have hn : ¬ lg > rg := by omega
      simp only [mkDetail, if_neg hn, if_pos h]
      constructor
      · simp
        omega
      · simp
        omega
    · have hn : ¬ lg > rg := by omega
      have hn2 : ¬ rg > lg := by omega
      simp only [mkDetail, if_neg hn, if_neg hn2]
      constructor
      · simp
        omega
      · simp
        omega
    · simp only [mkDetail, if_pos h]
      constructor
      · simp
        omega
      · simp
        omega
  · simp only [leftCount, List.filter_map, List.length_map]
    congr 1
  · simp only [rightCount, List.filter_map, List.length_map]
    congr 1
  · intro hgt
    simp only at hgt
    rw [determineWinner_not_walkover s side h1]
    cases side with
    | true => simpa using hgt
    | false =>
        simp only [if_neg (by simp : ¬ (false = true))]
        simp
        omega
  · intro hgt
    simp only at hgt
    rw [determineWinner_not_walkover s side h1]
    cases side with
    | true =>
        simp
        omega
    | false =>
        simp
        omega
  · rw [determineWinner_not_walkover s true h1, determineWinner_not_walkover s false h1]
    simp

/-- Witness for C1 at the concrete score string from the spec scenarios. -/
theorem C1_winner_by_set_majority_witness :
    ((jsTrim (s2l "6:3, 6:4") == scrMark || containsSub scrMark (jsTrim (s2l "6:3, 6:4"))) = false) ∧
    isWalkoverScore (jsTrim (s2l "6:3, 6:4")) = false ∧
    determineWinnerFromScore (s2l "6:3, 6:4") true
      = !(determineWinnerFromScore (s2l "6:3, 6:4") false) :=
  ⟨by decide, by decide,
    (C1_winner_by_set_majority (s2l "6:3, 6:4") true (by decide) (by decide)).2.2.2.2.2⟩

end CzTenis

namespace CzTenis

/-- State of `AdaptiveRateLimiter` (src/utils/adaptive-rate-limiter.ts).
Delays are modelled as exact rationals standing in for JS numbers. -/
structure RateLimiter where
  currentDelay : ℚ
  consecutiveErrors : Nat
  consecutiveSuccesses : Nat
  baseDelay : ℚ
  minDelay : ℚ
  maxDelay : ℚ
deriving DecidableEq

/-- `AdaptiveRateLimiter.onSuccess`: clear the error streak, bump the success
streak, and after three consecutive successes cut the delay by 10 percent
(floored at `minDelay`) and restart the streak. -/
def onSuccess (st : RateLimiter) : RateLimiter :=
  let st1 := { st with consecutiveErrors := 0,
                       consecutiveSuccesses := st.consecutiveSuccesses + 1 }
  if st1.consecutiveSuccesses ≥ 3 then
    { st1 with currentDelay := max st1.minDelay (st1.currentDelay * (9 / 10)),
               consecutiveSuccesses := 0 }
  else st1

/-- `AdaptiveRateLimiter.onError`: clear the success streak, bump the error
streak, and set the delay to `min(maxDelay, baseDelay * 2^min(errors, 4))`. -/
def onError (st : RateLimiter) : RateLimiter :=
  let errors := st.consecutiveErrors + 1
  { st with consecutiveSuccesses := 0,
            consecutiveErrors := errors,
            currentDelay := min st.maxDelay (st.baseDelay * 2 ^ min errors 4) }

/-- Claim C7: onError resets the success streak, increments the error streak
and sets the delay to min(maxDelay, baseDelay * 2^min(errorStreak, 4));
onSuccess resets the error streak, and starting from a zero success streak the
first two successes leave the delay unchanged while the third sets it to
max(minDelay, currentDelay * 0.9) and resets the streak. -/
theorem C7_adaptive_pacer_updates (st : RateLimiter) (hs : st.consecutiveSuccesses = 0) :
    ((onError st).consecutiveSuccesses = 0 ∧
     (onError st).consecutiveErrors = st.consecutiveErrors + 1 ∧
     (onError st).currentDelay
       = min st.maxDelay (st.baseDelay * 2 ^ min (st.consecutiveErrors + 1) 4)) ∧
    ((onSuccess st).consecutiveErrors = 0) ∧
    ((onSuccess st).currentDelay = st.currentDelay ∧
     (onSuccess st).consecutiveSuccesses = 1 ∧
     (onSuccess (onSuccess st)).currentDelay = st.currentDelay ∧
     (onSuccess (onSuccess st)).consecutiveSuccesses = 2 ∧
     (onSuccess (onSuccess (onSuccess st))).currentDelay
       = max st.minDelay (st.currentDelay * (9 / 10)) ∧
     (onSuccess (onSuccess (onSuccess st))).consecutiveSuccesses = 0) := by
  refine ⟨⟨rfl, rfl, rfl⟩, ?_, ?_⟩
  · simp [onSuccess]
    split <;> rfl
  · simp [onSuccess, hs]

end CzTenis

namespace CzTenis

/-- One row of the `scrape_queue` table (schema plus the depth migration). -/
structure QueueRow where
  playerId : Int
  priority : Int
  status : List Char
  attempts : Int
  lastAttemptAt : Option Nat
  errorMessage : Option (List Char)
  depth : Int
  createdAt : Nat
deriving DecidableEq

/-- Status literal. -/
def pendingS : List Char := s2l "pending"

/-- Status literal. -/
def processingS : List Char := s2l "processing"

/-- Status literal. -/
def completedS : List Char := s2l "completed"

/-- Status literal. -/
def failedS : List Char := s2l "failed"

/-- The row inserted by `ScrapeQueueRepository.add`: only playerId, priority
and status are supplied; attempts, errorMessage and depth take the column
defaults (0, null, 0). `createdAt` is the insertion timestamp. -/
def freshRow (pid priority : Int) (now : Nat) : QueueRow :=
  { playerId := pid, priority := priority, status := pendingS, attempts := 0,
    lastAttemptAt := none, errorMessage := none, depth := 0, createdAt := now }

/-- `ScrapeQueueRepository.add` (src/database/repositories/scrape-queue.repo.ts).
The table has a unique index on playerId; `onConflictDoNothing` keeps the
existing row, `onConflictDoUpdate` resets it to pending with the new priority
and a cleared error message. -/
def queueAdd (pid priority : Int) (force : Bool) (s : List QueueRow) (now : Nat) :
    List QueueRow :=
  let conflict := s.any (fun r => r.playerId == pid)
  if force then
    if conflict then
      s.map fun r =>
        if r.playerId == pid then
          { r with status := pendingS, priority := priority, errorMessage := none }
        else r
    else s ++ [freshRow pid priority now]
  else if conflict then s
  else s ++ [freshRow pid priority now]

/-- `QueueManager.addPlayer` (src/services/queue-manager.ts): skip when the
configured maximum depth is non-negative and the candidate depth exceeds it,
otherwise call `repo.add`. The call site passes depth and sourcePlayerId on,
but the repository method signature is `(playerId, priority, force)`, so in JS
those extra arguments are dropped; the depth is never stored. -/
def addPlayer (maxDepth pid priority : Int) (force : Bool) (depth : Int)
    (sourcePlayerId : Option Int) (s : List QueueRow) (now : Nat) : List QueueRow :=
  if maxDepth ≥ 0 ∧ depth > maxDepth then s
  else queueAdd pid priority force s now

/-- Row predicate of `getNextPending`. -/
def isPending (r : QueueRow) : Bool := r.status == pendingS

/-- `ORDER BY priority DESC, created_at ASC`: is `b` strictly preferred to `a`. -/
def preferredOver (a b : QueueRow) : Bool :=
  b.priority > a.priority || (b.priority == a.priority && b.createdAt < a.createdAt)

/-- `ScrapeQueueRepository.getNextPending`: the pending row with highest
priority, ties broken by earliest creation time. -/
def getNextPending (s : List QueueRow) : Option QueueRow :=
  (s.filter isPending).foldl
    (fun acc r =>
      match acc with
      | none => some r
      | some a => if preferredOver a r then some r else some a)
    none

/-- One Frontier operation (the mutations exposed by the repository). -/
inductive QOp
  | add (pid priority : Int) (force : Bool) (depth : Int) (src : Option Int)
  | markProcessing (pid : Int)
  | markCompleted (pid : Int)
  | markFailed (pid : Int) (msg : List Char)

/-- Apply one Frontier operation; the Nat component is a clock used for
`createdAt` / `lastAttemptAt` stamps. -/
def applyOp (maxDepth : Int) (st : List QueueRow × Nat) (op : QOp) :
    List QueueRow × Nat :=
  match op with
  | .add pid pr f d src => (addPlayer maxDepth pid pr f d src st.1 st.2, st.2 + 1)
  | .markProcessing pid =>
      (st.1.map fun r =>
        if r.playerId == pid then
          { r with status := processingS, attempts := r.attempts + 1,
                   lastAttemptAt := some st.2 }
        else r, st.2 + 1)
  | .markCompleted pid =>
      (st.1.map fun r =>
        if r.playerId == pid then { r with status := completedS, errorMessage := none }
        else r, st.2 + 1)
  | .markFailed pid msg =>
      (st.1.map fun r =>
        if r.playerId == pid then { r with status := failedS, errorMessage := some msg }
        else r, st.2 + 1)

/-- A Frontier history: operations applied to the initially empty store. -/
def runOps (maxDepth : Int) (ops : List QOp) : List QueueRow × Nat :=
  ops.foldl (applyOp maxDepth) ([], 0)

theorem getNextPending_mem (s : List QueueRow) (r : QueueRow)
    (h : getNextPending s = some r) : r ∈ s := by
  have key : ∀ (l : List QueueRow) (acc : Option QueueRow),
      (l.foldl (fun acc r =>
        match acc with
        | none => some r
        | some a => if preferredOver a r then some r else some a) acc) = some r →
      r ∈ l ∨ acc = some r := by
    intro l
    induction l with
    | nil => intro acc h; exact Or.inr h
    | cons x xs ih =>
      intro acc h
      rcases ih _ h with hmem | hacc
      · exact Or.inl (List.mem_cons_of_mem _ hmem)
      · cases acc with
        | none =>
          simp at hacc
          exact Or.inl (hacc ▸ List.mem_cons_self _ _)
        | some a =>
          by_cases hp : preferredOver a x
          · simp [hp] at hacc
            exact Or.inl (hacc ▸ List.mem_cons_self _ _)
          · simp [hp] at hacc
            exact Or.inr (by simpa using hacc)
  rcases key _ _ h with hmem | hacc
  · exact List.mem_of_mem_filter hmem
  · simp at hacc

theorem depth_zero_invariant (maxDepth : Int) (ops : List QOp) :
    ∀ r ∈ (runOps maxDepth ops).1, r.depth = 0 := by
  suffices key : ∀ (ops : List QOp) (st : List QueueRow × Nat),
      (∀ r ∈ st.1, r.depth = 0) →
      ∀ r ∈ (ops.foldl (applyOp maxDepth) st).1, r.depth = 0 by
    intro r hr
    exact key ops ([], 0) (by simp) r hr
  intro ops
  induction ops with
  | nil => intro st h; exact h
  | cons op rest ih =>
    intro st h
    apply ih
    intro r hr
    cases op with
    | add pid pr f d src =>
      simp only [applyOp, addPlayer] at hr
      split at hr
      · exact h r hr
      · simp only [queueAdd] at hr
        split at hr
        · split at hr
          · obtain ⟨r0, hr0, rfl⟩ := List.mem_map.mp hr
            split <;> simp [h r0 hr0]
          · rcases List.mem_append.mp hr with h1 | h1
            · exact h r h1
            · simp at h1
              simp [h1, freshRow]
        · split at hr
          · exact h r hr
          · rcases List.mem_append.mp hr with h1 | h1
            · exact h r h1
            · simp at h1
              simp [h1, freshRow]
    | markProcessing pid =>
      simp only [applyOp] at hr
      obtain ⟨r0, hr0, rfl⟩ := List.mem_map.mp hr
      split <;> simp [h r0 hr0]
    | markCompleted pid =>
      simp only [applyOp] at hr
      obtain ⟨r0, hr0, rfl⟩ := List.mem_map.mp hr
      split <;> simp [h r0 hr0]
    | markFailed pid msg =>
      simp only [applyOp] at hr
      obtain ⟨r0, hr0, rfl⟩ := List.mem_map.mp hr
      split <;> simp [h r0 hr0]

/-- Claim C4: with a configured non-negative maximum depth, an enqueue whose
candidate depth exceeds the bound leaves the Frontier unchanged (and returns
without error), and over any history of Frontier operations `getNextPending`
never returns an item whose depth exceeds the bound. -/
theorem C4_max_depth_bound (maxDepth : Int) (hd : 0 ≤ maxDepth) :
    (∀ pid pr f d src s now, d > maxDepth →
        addPlayer maxDepth pid pr f d src s now = s) ∧
    (∀ ops r, getNextPending (runOps maxDepth ops).1 = some r →
        r.depth ≤ maxDepth) := by
  constructor
  · intro pid pr f d src s now hdd
    simp [addPlayer, hd, hdd]
  · intro ops r h
    have hmem := getNextPending_mem _ _ h
    have := depth_zero_invariant maxDepth ops r hmem
    omega

/-- Claim C3 (refuting evaluation): enqueuing player 42 at depth 2 with an
unlimited depth bound stores a QueueItem whose depth is the column default 0,
not 2, because `ScrapeQueueRepository.add` has no depth parameter; the
dequeued item therefore also carries depth 0. -/
theorem C3_depth_dropped_at_enqueue :
    ((addPlayer (-1) 42 0 false 2 (some 7) [] 0).map QueueRow.depth = [0]) ∧
    ((getNextPending (addPlayer (-1) 42 0 false 2 (some 7) [] 0)).map QueueRow.depth
      = some 0) := by
  constructor
  · decide
  · decide

end CzTenis

namespace CzTenis

theorem filter_length_map_of_preserve (f : QueueRow → QueueRow) (p : QueueRow → Bool)
    (s : List QueueRow) (hp : ∀ r, p (f r) = p r) :
    ((s.map f).filter p).length = (s.filter p).length := by
  induction s with
  | nil => rfl
  | cons x xs ih =>
    simp only [List.map_cons, List.filter_cons, hp]
    by_cases hx : p x <;> simp [hx, ih]

/-- Claim C6: enqueuing a player that already has a QueueItem leaves the
store untouched without `force`; with `force` the existing item is reset to
pending with a cleared error message and a new priority, its other fields
kept, and no second item is created. -/
theorem C6_enqueue_idempotent (pid pr : Int) (now : Nat) (s : List QueueRow)
    (h : (s.filter fun r => r.playerId == pid).length = 1) :
    queueAdd pid pr false s now = s ∧
    (queueAdd pid pr true s now).length = s.length ∧
    ((queueAdd pid pr true s now).filter fun r => r.playerId == pid).length = 1 ∧
    (∀ r ∈ queueAdd pid pr true s now, r.playerId ≠ pid → r ∈ s) ∧
    (∀ r ∈ queueAdd pid pr true s now, r.playerId = pid →
        r.status = pendingS ∧ r.errorMessage = none ∧ r.priority = pr ∧
        ∃ r0 ∈ s, r0.playerId = pid ∧ r.attempts = r0.attempts ∧
          r.depth = r0.depth ∧ r.createdAt = r0.createdAt) := by
  have hconflict : s.any (fun r => r.playerId == pid) = true := by
    rcases List.length_eq_one.mp h with ⟨r, hr⟩
    have : r ∈ s.filter fun r => r.playerId == pid := by simp [hr]
    rw [List.mem_filter] at this
    exact List.any_eq_true.mpr ⟨r, this.1, this.2⟩
  refine ⟨?_, ?_, ?_, ?_, ?_⟩
  · simp [queueAdd, hconflict]
  · simp [queueAdd, hconflict]
  · simp only [queueAdd, hconflict, if_pos, if_true]
    rw [filter_length_map_of_preserve _ _ _ ?_, h]
    intro r
    by_cases hp : r.playerId == pid <;> simp [hp]
  · intro r hr hne
    simp only [queueAdd, hconflict, if_true] at hr
    obtain ⟨r0, hr0, rfl⟩ := List.mem_map.mp hr
    by_cases hp : r0.playerId == pid
    · simp [hp] at hne ⊢
      exact absurd (by simpa using hp) (by simpa using hne)
    · simpa [hp] using hr0
  · intro r hr hpe
    simp only [queueAdd, hconflict, if_true] at hr
    obtain ⟨r0, hr0, rfl⟩ := List.mem_map.mp hr
    by_cases hp : r0.playerId == pid
    · refine ⟨?_, ?_, ?_, r0, hr0, by simpa using hp, ?_, ?_, ?_⟩ <;> simp [hp]
    · simp [hp] at hpe
      exact absurd (by simpa using hpe) (by simpa using hp)

end CzTenis

namespace CzTenis

/-- One row of the `matches` table, as supplied to `MatchRepository.create`.
`matchDate` is abstracted to the year of the JS `Date`. -/
structure MatchRow where
  tournamentId : Int
  matchType : List Char
  competitionType : List Char
  round : List Char
  player1Id : Option Int
  player2Id : Option Int
  player1PartnerId : Option Int
  player2PartnerId : Option Int
  score : List Char
  isWalkover : Bool
  winnerId : Option Int
  pointsEarned : Int
  matchDate : Option Int
deriving DecidableEq

/-- JS truthiness of an optional numeric value (`undefined`, `null` and `0`
are falsy). -/
def optTruthy : Option Int → Bool
  | none => false
  | some v => v != 0

/-- The duplicate key of `MatchRepository.create`:
(tournamentId, round, player1Id, player2Id, matchType). -/
def sameKey (d r : MatchRow) : Bool :=
  r.tournamentId == d.tournamentId && r.round == d.round &&
    r.player1Id == d.player1Id && r.player2Id == d.player2Id &&
    r.matchType == d.matchType

/-- `MatchRepository.create` (src/database/repositories/match.repo.ts):
throw on missing player or tournament ids, return the existing row when a
duplicate-key row exists, otherwise insert. -/
def matchCreate (data : MatchRow) (s : List MatchRow) :
    Except (List Char) (List MatchRow × MatchRow) :=
  if !(optTruthy data.player1Id) || !(optTruthy data.player2Id) then
    Except.error (s2l "Cannot create match: missing player IDs")
  else if data.tournamentId == 0 then
    Except.error (s2l "Cannot create match: missing tournamentId")
  else
    match s.find? (sameKey data) with
    | some existing => Except.ok (s, existing)
    | none => Except.ok (s ++ [data], data)

/-- Claim C5: `MatchRepository.create` is idempotent under the duplicate key
(tournament, round, player1, player2, matchType): after a first insert of a
fresh logical match, a second call with the same key returns the existing row,
leaves the store unchanged, and exactly one row with that key is stored. -/
theorem C5_insertMatch_idempotent (d1 d2 : MatchRow) (s : List MatchRow)
    (hp1 : optTruthy d1.player1Id = true) (hp2 : optTruthy d1.player2Id = true)
    (ht : d1.tournamentId ≠ 0)
    (hkey : d2.tournamentId = d1.tournamentId ∧ d2.round = d1.round ∧
        d2.player1Id = d1.player1Id ∧ d2.player2Id = d1.player2Id ∧
        d2.matchType = d1.matchType)
    (hnew : s.find? (sameKey d1) = none) :
    matchCreate d1 s = Except.ok (s ++ [d1], d1) ∧
    matchCreate d2 (s ++ [d1]) = Except.ok (s ++ [d1], d1) ∧
    ((s ++ [d1]).filter (sameKey d2)).length = 1 := by
  obtain ⟨hk1, hk2, hk3, hk4, hk5⟩ := hkey
  have hsame : ∀ r, sameKey d2 r = sameKey d1 r := by
    intro r
    simp [sameKey, hk1, hk2, hk3, hk4, hk5]
  have hfil : s.filter (sameKey d1) = [] := by
    rw [List.filter_eq_nil_iff]
    intro r hr
    have := List.find?_eq_none.mp hnew r hr
    simpa using this
  have hd1 : sameKey d1 d1 = true := by simp [sameKey]
  refine ⟨?_, ?_, ?_⟩
  · simp [matchCreate, hp1, hp2, ht, hnew]
  · have hq1 : optTruthy d2.player1Id = true := by rw [hk3]; exact hp1
    have hq2 : optTruthy d2.player2Id = true := by rw [hk4]; exact hp2
    have hqt : d2.tournamentId ≠ 0 := by rw [hk1]; exact ht
    have hfind : (s ++ [d1]).find? (sameKey d2) = some d1 := by
      have h1 : s.find? (sameKey d2) = none := by
        rw [List.find?_eq_none]
        intro r hr
        rw [hsame]
        have := List.find?_eq_none.mp hnew r hr
        simpa using this
      rw [List.find?_append, h1]
      simp [hsame, hd1]
    simp [matchCreate, hq1, hq2, hqt, hfind]
  · rw [List.filter_append]
    have : s.filter (sameKey d2) = [] := by
      rw [List.filter_eq_nil_iff]
      intro r hr
      rw [hsame]
      have := List.find?_eq_none.mp hnew r hr
      simpa using this
    rw [this]
    simp [hsame, hd1]

/-- A `ParsedMatch` (src/scrapers/parsers/match-parser.ts). `tournamentDate`
is abstracted to the year of the JS `Date`; `none` models an absent date. -/
structure ParsedMatch where
  tournamentId : Int
  tournamentName : List Char
  tournamentDate : Option Int
  matchType : List Char
  competitionType : List Char
  round : List Char
  opponentId : Option Int
  opponentName : Option (List Char)
  partnerId : Option Int
  partnerName : Option (List Char)
  opponentPartnerId : Option Int
  opponentPartnerName : Option (List Char)
  score : List Char
  isWalkover : Bool
  isWinner : Bool
  pointsEarned : Int
deriving DecidableEq

/-- The row the Orchestrator passes to `matchRepo.create`
(src HTTP `PlayerScraper.scrapePlayer`): winner first on both id and partner
columns, and `winnerId` computed by the same conditional. -/
def buildMatchRow (playerId : Int) (m : ParsedMatch) : MatchRow :=
  { tournamentId := m.tournamentId
    matchType := m.matchType
    competitionType := m.competitionType
    round := m.round
    player1Id := if m.isWinner then some playerId else m.opponentId
    player2Id := if m.isWinner then m.opponentId else some playerId
    player1PartnerId := if m.isWinner then m.partnerId else m.opponentPartnerId
    player2PartnerId := if m.isWinner then m.opponentPartnerId else m.partnerId
    score := m.score
    isWalkover := m.isWalkover
    winnerId := if m.isWinner then some playerId else m.opponentId
    pointsEarned := m.pointsEarned
    matchDate := m.tournamentDate }

/-- Claim C10: the row the Orchestrator passes to `matchRepo.create` is
winner-first (player1Id equals winnerId, the loser is player2Id) with the
partner columns in the same orientation, and the store keeps the winner-first
invariant across `create` calls. -/
theorem C10_winner_first (pid : Int) (m : ParsedMatch) (s s1 : List MatchRow)
    (res : MatchRow)
    (hinv : ∀ r ∈ s, r.player1Id = r.winnerId)
    (hc : matchCreate (buildMatchRow pid m) s = Except.ok (s1, res)) :
    (∀ r ∈ s1, r.player1Id = r.winnerId) ∧
    (buildMatchRow pid m).player1Id = (buildMatchRow pid m).winnerId ∧
    (buildMatchRow pid m).player2Id
      = (if m.isWinner then m.opponentId else some pid) ∧
    (buildMatchRow pid m).player1PartnerId
      = (if m.isWinner then m.partnerId else m.opponentPartnerId) ∧
    (buildMatchRow pid m).player2PartnerId
      = (if m.isWinner then m.opponentPartnerId else m.partnerId) := by
  refine ⟨?_, rfl, rfl, rfl, rfl⟩
  simp only [matchCreate] at hc
  split at hc
  · exact absurd hc (by simp)
  · split at hc
    · exact absurd hc (by simp)
    · split at hc
      · rw [Except.ok.injEq, Prod.mk.injEq] at hc
        intro r hr
        rw [← hc.1] at hr
        exact hinv r hr
      · rw [Except.ok.injEq, Prod.mk.injEq] at hc
        intro r hr
        rw [← hc.1] at hr
        rcases List.mem_append.mp hr with h1 | h1
        · exact hinv r h1
        · simp at h1
          subst h1
          rfl

end CzTenis


namespace CzTenis

/-- A concrete rate-limiter state for the C7 witness. -/
def sampleLimiter : RateLimiter :=
  { currentDelay := 1000, consecutiveErrors := 0, consecutiveSuccesses := 0,
    baseDelay := 1000, minDelay := 300, maxDelay := 5000 }

/-- Witness for C7 at a concrete base state. -/
theorem C7_adaptive_pacer_updates_witness :
    sampleLimiter.consecutiveSuccesses = 0 ∧
    (onSuccess sampleLimiter).consecutiveErrors = 0 :=
  ⟨rfl, (C7_adaptive_pacer_updates sampleLimiter rfl).2.1⟩

/-- Witness for C4: with maxDepth 2, an enqueue at depth 3 is dropped. -/
theorem C4_max_depth_bound_witness :
    (0 : Int) ≤ 2 ∧ (3 : Int) > 2 ∧
    addPlayer 2 42 0 false 3 (some 1) [] 0 = [] :=
  ⟨by decide, by decide,
    (C4_max_depth_bound 2 (by decide)).1 42 0 false 3 (some 1) [] 0 (by decide)⟩

/-- Witness for C6 on a one-row store. -/
theorem C6_enqueue_idempotent_witness :
    (([freshRow 5 1 0].filter fun r => r.playerId == 5).length = 1) ∧
    queueAdd 5 2 false [freshRow 5 1 0] 3 = [freshRow 5 1 0] :=
  ⟨by decide, (C6_enqueue_idempotent 5 2 3 [freshRow 5 1 0] (by decide)).1⟩

/-- A concrete match row for the C5 witness (spec scenario 4). -/
def sampleRow : MatchRow :=
  { tournamentId := 100, matchType := s2l "singles",
    competitionType := s2l "individual", round := s2l "32>16",
    player1Id := some 5, player2Id := some 9,
    player1PartnerId := none, player2PartnerId := none,
    score := s2l "6:3, 6:4", isWalkover := false, winnerId := some 5,
    pointsEarned := 10, matchDate := some 2024 }

/-- Witness for C5: inserting the same logical match twice stores one row. -/
theorem C5_insertMatch_idempotent_witness :
    (([] : List MatchRow).find? (sameKey sampleRow) = none) ∧
    matchCreate sampleRow ([] ++ [sampleRow])
      = Except.ok ([] ++ [sampleRow], sampleRow) :=
  ⟨rfl,
    (C5_insertMatch_idempotent sampleRow sampleRow [] (by decide) (by decide)
      (by decide) ⟨rfl, rfl, rfl, rfl, rfl⟩ rfl).2.1⟩

/-- A concrete extracted match for the C10 witness. -/
def sampleParsed : ParsedMatch :=
  { tournamentId := 1, tournamentName := s2l "T", tournamentDate := some 2024,
    matchType := s2l "singles", competitionType := s2l "individual",
    round := s2l "2>1", opponentId := some 9, opponentName := some (s2l "Opp"),
    partnerId := none, partnerName := none, opponentPartnerId := none,
    opponentPartnerName := none, score := s2l "6:3, 6:4", isWalkover := false,
    isWinner := true, pointsEarned := 0 }

/-- Witness for C10 on the empty store. -/
theorem C10_winner_first_witness :
    (∀ r ∈ ([] : List MatchRow), r.player1Id = r.winnerId) ∧
    (buildMatchRow 5 sampleParsed).player1Id
      = (buildMatchRow 5 sampleParsed).winnerId :=
  ⟨by simp,
    (C10_winner_first 5 sampleParsed [] ([] ++ [buildMatchRow 5 sampleParsed])
      (buildMatchRow 5 sampleParsed) (by simp) rfl).2.1⟩

end CzTenis

namespace CzTenis

/-- Error findings of `validateSet`/`validateScore`
(src/validators/score-validator.ts); message strings abstracted to tags. -/
inductive SErr
  | emptyScore
  | noSets
  | invalidFormat (setNumber : Nat)
  | negativeGames (setNumber : Nat)
  | mustWinByTwo (setNumber : Nat)
deriving DecidableEq

/-- Warning findings of `validateSet`/`validateScore`. -/
inductive SWarn
  | walkoverScore
  | unusualSetCount (n : Nat)
  | highGames (setNumber : Nat)
  | longTiebreak (setNumber : Nat)
  | earlySuperTiebreak (setNumber : Nat)
  | tiebreakInLongSet (setNumber : Nat)
  | unexpectedTiebreak (setNumber : Nat)
  | sixLoserUnusual (setNumber : Nat)
  | endedBeforeSix (setNumber : Nat)
deriving DecidableEq

/-- The anchored set regex of `validateSet`: matches a full string of shape
digits, a colon, digits, then an optional whitespace-padded parenthesized
digit run. Returns the two game counts and the optional tiebreak value. -/
def parseSetPattern (l : List Char) : Option (Nat × Nat × Option Nat) :=
  let d1 := l.takeWhile Char.isDigit
  if d1.isEmpty then none
  else
    match l.dropWhile Char.isDigit with
    | ':' :: r2 =>
        let d2 := r2.takeWhile Char.isDigit
        if d2.isEmpty then none
        else
          match r2.dropWhile Char.isDigit with
          | [] => some (digitsVal d1, digitsVal d2, none)
          | r3 =>
              match r3.dropWhile wsChar with
              | '(' :: r5 =>
                  let d3 := r5.takeWhile Char.isDigit
                  if d3.isEmpty then none
                  else
                    match r5.dropWhile Char.isDigit with
                    | [')'] => some (digitsVal d1, digitsVal d2, some (digitsVal d3))
                    | _ => none
              | _ => none
    | _ => none

/-- `validateSet` from src/validators/score-validator.ts. -/
def validateSet (setScore : List Char) (setNumber : Nat) : List SErr × List SWarn :=
  match parseSetPattern setScore with
  | none => ([SErr.invalidFormat setNumber], [])
  | some (g1, g2, tb) =>
      let games1 : Int := g1
      let games2 : Int := g2
      let e1 : List SErr :=
        if games1 < 0 ∨ games2 < 0 then [SErr.negativeGames setNumber] else []
      let w1 : List SWarn :=
        if games1 > 20 ∨ games2 > 20 then [SWarn.highGames setNumber] else []
      match tb with
      | some tbv =>
          let wtb : List SWarn :=
            if (games1 = 7 ∧ games2 = 6) ∨ (games1 = 6 ∧ games2 = 7) then
              if (tbv : Int) > 20 then [SWarn.longTiebreak setNumber] else []
            else if (games1 = 1 ∧ games2 = 0) ∨ (games1 = 0 ∧ games2 = 1) then
              if (tbv : Int) < 7 then [SWarn.earlySuperTiebreak setNumber] else []
            else if games1 ≥ 6 ∧ games2 ≥ 6 then [SWarn.tiebreakInLongSet setNumber]
            else [SWarn.unexpectedTiebreak setNumber]
          (e1, w1 ++ wtb)
      | none =>
          let diff : Int := |games1 - games2|
          let winner := max games1 games2
          let loser := min games1 games2
          if winner = 6 then
            (e1, w1 ++ (if loser > 4 then [SWarn.sixLoserUnusual setNumber] else []))
          else if winner = 7 ∧ loser = 5 then (e1, w1)
          else if winner ≥ 6 ∧ diff = 2 then (e1, w1)
          else if winner < 6 then (e1, w1 ++ [SWarn.endedBeforeSix setNumber])
          else if winner > 7 ∧ diff < 2 then (e1 ++ [SErr.mustWinByTwo setNumber], w1)
          else (e1, w1)

/-- The walkover vocabulary of src/validators/score-validator.ts. -/
def walkoverPatternsV : List (List Char) :=
  [s2l "scr.", s2l "w.o.", s2l "def.", s2l "ret.", s2l "skreč"]

/-- The record returned by `validateScore`. -/
structure ScoreValidation where
  valid : Bool
  sets : Nat
  errors : List SErr
  warnings : List SWarn
deriving DecidableEq

/-- `validateScore` from src/validators/score-validator.ts. -/
def validateScore (score : List Char) : ScoreValidation :=
  if score.isEmpty ∨ (jsTrim score).isEmpty then
    ⟨false, 0, [SErr.emptyScore], []⟩
  else
    let trimmedScore := jsTrim score
    if walkoverPatternsV.any (fun p => containsSub p (jsToLower trimmedScore)) then
      ⟨true, 0, [], [SWarn.walkoverScore]⟩
    else
      let sets := (splitChar ',' trimmedScore).map jsTrim
      if sets.length = 0 then ⟨false, 0, [SErr.noSets], []⟩
      else
        let res := sets.foldl
          (fun (acc : Nat × List SErr × List SWarn) setScore =>
            let v := validateSet setScore (acc.1 + 1)
            (acc.1 + 1, acc.2.1 ++ v.1, acc.2.2 ++ v.2))
          (0, [], [])
        let warnings :=
          if sets.length > 5 then res.2.2 ++ [SWarn.unusualSetCount sets.length]
          else res.2.2
        ⟨res.2.1.isEmpty, sets.length, res.2.1, warnings⟩

/-- `isWalkover` from src/validators/score-validator.ts: case-insensitive
substring match of the whole vocabulary on the lowercased, trimmed score. -/
def isWalkover (score : List Char) : Bool :=
  if score.isEmpty then false
  else
    let normalized := jsTrim (jsToLower score)
    walkoverPatternsV.any fun p => containsSub (jsToLower p) normalized

/-- Error findings of `validateMatch` (src/validators/match-validator.ts);
message strings abstracted to tags, score errors wrapped like the source's
string prefix. -/
inductive MErr
  | missingTournamentId
  | missingTournamentDate
  | missingOpponentId
  | invalidMatchType
  | invalidCompetitionType
  | missingRound
  | missingScore
  | scoreErr (e : SErr)
  | negativePoints
deriving DecidableEq

/-- Warning findings of `validateMatch`. -/
inductive MWarn
  | missingTournamentName
  | unusualYear (y : Int)
  | unusualOpponentIdFormat
  | doublesMissingPartner
  | doublesMissingOpponentPartner
  | unusualRound
  | scoreWarn (w : SWarn)
  | walkoverFlagMismatch
  | highPoints
deriving DecidableEq

/-- `ValidationResult` of src/validators/match-validator.ts. -/
structure ValidationResult where
  isValid : Bool
  errors : List MErr
  warnings : List MWarn
deriving DecidableEq

/-- `VALID_ROUNDS` of src/validators/match-validator.ts. -/
def validRounds : List (List Char) :=
  [s2l "64>32", s2l "32>16", s2l "16>8", s2l "8>4", s2l "4>2", s2l "2>1",
   s2l "team", s2l "skupina", s2l "final", s2l "semifinal", s2l "quarterfinal",
   s2l "1.k", s2l "2.k", s2l "3.k", s2l "4.k",
   s2l "F", s2l "SF", s2l "QF"]

/-- `VALID_MATCH_TYPES`. -/
def validMatchTypes : List (List Char) := [s2l "singles", s2l "doubles"]

/-- `VALID_COMPETITION_TYPES`. -/
def validCompetitionTypes : List (List Char) := [s2l "individual", s2l "team"]

/-- JS truthiness of an `Int` column value. -/
def intTruthy (v : Int) : Bool := v != 0

/-- The regex test `/^10\d{5}$/` on `String(opponentId)`: a seven-digit
decimal starting with `10`, i.e. a value between 1000000 and 1099999. -/
def opponentIdFormatOk (v : Int) : Bool := 1000000 ≤ v && v ≤ 1099999

/-- The error pushes of `validateMatch`, in source order. `currentYear` stands
for `new Date().getFullYear()`. -/
def collectErrors (currentYear : Int) (m : ParsedMatch) : List MErr :=
  (if !(intTruthy m.tournamentId) || m.tournamentId == 0 then
      [MErr.missingTournamentId] else []) ++
  (match m.tournamentDate with
    | none => [MErr.missingTournamentDate]
    | some _ => []) ++
  (if !(optTruthy m.opponentId) && !m.isWalkover then
      [MErr.missingOpponentId] else []) ++
  (if !(validMatchTypes.contains m.matchType) then [MErr.invalidMatchType] else []) ++
  (if !(validCompetitionTypes.contains m.competitionType) then
      [MErr.invalidCompetitionType] else []) ++
  (if m.round.isEmpty ∨ (jsTrim m.round).isEmpty then [MErr.missingRound] else []) ++
  (if m.score.isEmpty ∨ (jsTrim m.score).isEmpty then [MErr.missingScore]
   else
     let sv := validateScore m.score
     if !sv.valid then sv.errors.map MErr.scoreErr else []) ++
  (if m.pointsEarned < 0 then [MErr.negativePoints] else [])

/-- The warning pushes of `validateMatch`, in source order. -/
def collectWarnings (currentYear : Int) (m : ParsedMatch) : List MWarn :=
  (if m.tournamentName.isEmpty ∨ (jsTrim m.tournamentName).isEmpty then
      [MWarn.missingTournamentName] else []) ++
  (match m.tournamentDate with
    | none => []
    | some year =>
        if year < 2000 ∨ year > currentYear + 1 then [MWarn.unusualYear year]
        else []) ++
  (match m.opponentId with
    | some v =>
        if v != 0 && !(opponentIdFormatOk v) then [MWarn.unusualOpponentIdFormat]
        else []
    | none => []) ++
  (if m.matchType == s2l "doubles" then
      (if !(optTruthy m.partnerId) then [MWarn.doublesMissingPartner] else []) ++
      (if !(optTruthy m.opponentPartnerId) && !m.isWalkover then
          [MWarn.doublesMissingOpponentPartner] else [])
    else []) ++
  (if m.round.isEmpty ∨ (jsTrim m.round).isEmpty then []
   else if validRounds.any (fun r => containsSub (jsToLower r) (jsTrim (jsToLower m.round))) then []
   else [MWarn.unusualRound]) ++
  (if m.score.isEmpty ∨ (jsTrim m.score).isEmpty then []
   else
     (validateScore m.score).warnings.map MWarn.scoreWarn ++
     (if (isWalkover m.score) != m.isWalkover then [MWarn.walkoverFlagMismatch]
      else [])) ++
  (if m.pointsEarned > 10000 then [MWarn.highPoints] else [])

/-- `validateMatch` from src/validators/match-validator.ts: the two push
streams above plus `isValid := errors.length === 0`. -/
def validateMatch (currentYear : Int) (m : ParsedMatch) : ValidationResult :=
  ⟨(collectErrors currentYear m).isEmpty,
   collectErrors currentYear m,
   collectWarnings currentYear m⟩

/-- The per-match gate of the HTTP `PlayerScraper.scrapePlayer` loop
(src/scrapers/parsers/match-parser.ts, HTTP orchestrator section): skip when
validation fails, then skip when the opponent id is missing; otherwise the
match reaches `matchRepo.create`. Player upserts and the subsequent
`findById` check always succeed in this store model. -/
def reachesCreate (currentYear : Int) (m : ParsedMatch) : Bool :=
  if !(validateMatch currentYear m).isValid then false
  else if !(optTruthy m.opponentId) then false
  else true

/-- Claim C2 (amended): a match reaches persistence iff its validation error
list is empty AND it carries a truthy opponent identifier; a non-empty error
list always blocks persistence, and `isValid` is exactly error-emptiness, so
warnings never block. -/
theorem C2_persist_iff_no_errors_and_opponent (y : Int) (m : ParsedMatch) :
    (reachesCreate y m = true ↔
      ((validateMatch y m).errors = [] ∧ optTruthy m.opponentId = true)) ∧
    ((validateMatch y m).errors ≠ [] → reachesCreate y m = false) ∧
    ((validateMatch y m).isValid = true ↔ (validateMatch y m).errors = []) := by
  have hv : (validateMatch y m).isValid = (collectErrors y m).isEmpty := rfl
  have he : (validateMatch y m).errors = collectErrors y m := rfl
  refine ⟨?_, ?_, ?_⟩
  · rw [reachesCreate, hv, he]
    cases hE : (collectErrors y m).isEmpty <;>
      cases hO : optTruthy m.opponentId <;>
        simp_all [List.isEmpty_iff]
  · intro hne
    rw [he] at hne
    rw [reachesCreate, hv]
    have : (collectErrors y m).isEmpty = false := by
      cases hE : (collectErrors y m).isEmpty
      · rfl
      · exact absurd (List.isEmpty_iff.mp hE) hne
    simp [this]
  · rw [hv, he, List.isEmpty_iff]

/-- A zero-error walkover record with no opponent id. -/
def sampleWalkoverNoOpp : ParsedMatch :=
  { tournamentId := 1, tournamentName := s2l "T", tournamentDate := some 2024,
    matchType := s2l "singles", competitionType := s2l "individual",
    round := s2l "2>1", opponentId := none, opponentName := none,
    partnerId := none, partnerName := none, opponentPartnerId := none,
    opponentPartnerName := none, score := s2l "w.o.", isWalkover := true,
    isWinner := true, pointsEarned := 0 }

/-- Claim C2 counterexample: a walkover record with no opponent id has zero
errors (and a warning) yet is not persisted, refuting the claimed
"if and only if". -/
theorem C2_zero_errors_without_opponent_skipped :
    (validateMatch 2025 sampleWalkoverNoOpp).errors = [] ∧
    (validateMatch 2025 sampleWalkoverNoOpp).warnings ≠ [] ∧
    reachesCreate 2025 sampleWalkoverNoOpp = false := by
  refine ⟨by decide, by decide, by decide⟩

end CzTenis


namespace CzTenis

/-- A zero-error match with an opponent id, for the C2 witness. -/
def sampleValidMatch : ParsedMatch :=
  { tournamentId := 1, tournamentName := s2l "T", tournamentDate := some 2024,
    matchType := s2l "singles", competitionType := s2l "individual",
    round := s2l "2>1", opponentId := some 9, opponentName := some (s2l "Opp"),
    partnerId := none, partnerName := none, opponentPartnerId := none,
    opponentPartnerName := none, score := s2l "6:3, 6:4", isWalkover := false,
    isWinner := true, pointsEarned := 0 }

/-- Witness for C2 at a concrete zero-error match. -/
theorem C2_persist_iff_no_errors_and_opponent_witness :
    reachesCreate 2025 sampleValidMatch = true :=
  (C2_persist_iff_no_errors_and_opponent 2025 sampleValidMatch).1.mpr
    ⟨by decide, by decide⟩

end CzTenis

namespace CzTenis

/-- The record returned by `parseScore` (src/utils/score-parser.ts). -/
structure ParsedScore where
  fullScore : List Char
  sets : List (List Char)
  isWalkover : Bool
  isRetirement : Bool
deriving DecidableEq

/-- `parseScore` from src/utils/score-parser.ts: only a literal,
case-sensitive `scr.` substring of the trimmed text flags a walkover. -/
def parseScore (scoreText : List Char) : ParsedScore :=
  let cleanScore := jsTrim scoreText
  if cleanScore == scrMark || containsSub scrMark cleanScore then
    ⟨cleanScore, [], true, false⟩
  else
    let isW := containsSub scrMark cleanScore
    let sets := ((splitChar ',' cleanScore).map jsTrim).filter
      fun x => !x.isEmpty && x != scrMark
    ⟨cleanScore, sets, isW, false⟩

/-- Claim C9 (amended): only the validator's `isWalkover` implements the
case-insensitive substring match over the full vocabulary
(scr., w.o., def., ret., skreč); `isWalkoverScore` flags a subset of that
language (a `scr.` substring, or exact equality with w.o./def./ret.), and
`parseScore` flags exactly the trimmed scores containing a case-sensitive
`scr.` - the entry points are not uniform. -/
theorem C9_walkover_entry_points (s : List Char) :
    (isWalkover s = true ↔
      (s ≠ [] ∧ ∃ p ∈ walkoverPatternsV,
        containsSub (jsToLower p) (jsTrim (jsToLower s)) = true)) ∧
    (isWalkoverScore s = true → isWalkover s = true) ∧
    ((parseScore s).isWalkover
      = (jsTrim s == scrMark || containsSub scrMark (jsTrim s))) := by
  have hwalk : ∀ t : List Char, t ≠ [] →
      isWalkover t =
        walkoverPatternsV.any fun p => containsSub (jsToLower p) (jsTrim (jsToLower t)) := by
    intro t ht
    rw [isWalkover]
    have : t.isEmpty = false := by
      cases t
      · exact absurd rfl ht
      · rfl
    simp [this]
  refine ⟨?_, ?_, ?_⟩
  · constructor
    · intro h
      by_cases hs : s = []
      · subst hs
        exact absurd h (by decide)
      · rw [hwalk s hs] at h
        exact ⟨hs, List.any_eq_true.mp h⟩
    · rintro ⟨hs, p, hp, hc⟩
      rw [hwalk s hs]
      exact List.any_eq_true.mpr ⟨p, hp, hc⟩
  · intro h
    by_cases hs : s = []
    · subst hs
      exact absurd h (by decide)
    · rw [hwalk s hs]
      rw [isWalkoverScore] at h
      simp only [Bool.or_eq_true] at h
      rw [List.any_eq_true]
      rcases h with ((((h | h) | h) | h) | h)
      · refine ⟨scrMark, by decide, ?_⟩
        rw [beq_iff_eq] at h
        rw [show jsToLower scrMark = scrMark from by decide, h]
        decide
      · exact ⟨scrMark, by decide, by rw [show jsToLower scrMark = scrMark from by decide]; exact h⟩
      · refine ⟨s2l "w.o.", by decide, ?_⟩
        rw [beq_iff_eq] at h
        rw [show jsToLower (s2l "w.o.") = s2l "w.o." from by decide, h]
        decide
      · refine ⟨s2l "def.", by decide, ?_⟩
        rw [beq_iff_eq] at h
        rw [show jsToLower (s2l "def.") = s2l "def." from by decide, h]
        decide
      · refine ⟨s2l "ret.", by decide, ?_⟩
        rw [beq_iff_eq] at h
        rw [show jsToLower (s2l "ret.") = s2l "ret." from by decide, h]
        decide
  · rw [parseScore]
    by_cases h : (jsTrim s == scrMark || containsSub scrMark (jsTrim s)) = true
    · simp [h]
    · have h2 : (jsTrim s == scrMark || containsSub scrMark (jsTrim s)) = false :=
        Bool.eq_false_iff.mpr h
      simp only [h2, Bool.false_eq_true, if_false]
      have : containsSub scrMark (jsTrim s) = false := by
        rcases Bool.or_eq_false_iff.mp h2 with ⟨_, hb⟩
        exact hb
      simp [this]

/-- Claim C9 counterexample: `w.o.` is in the claimed vocabulary language but
`parseScore` does not flag it, and `6:3, ret.` contains `ret.` but
`isWalkoverScore` does not flag it. -/
theorem C9_entry_points_disagree :
    isWalkover (s2l "w.o.") = true ∧
    (parseScore (s2l "w.o.")).isWalkover = false ∧
    isWalkover (s2l "6:3, ret.") = true ∧
    isWalkoverScore (s2l "6:3, ret.") = false := by
  decide

end CzTenis

namespace CzTenis

/-- One stored match row as the Integrity Auditor reads it back
(only the columns its Rule 3 uses). -/
structure StoredMatch where
  id : Int
  round : List Char
  player1Id : Option Int
  player2Id : Option Int
  winnerId : Option Int
deriving DecidableEq

/-- `ROUND_ORDER` of src/validators/match-validator.ts (integrity section):
higher number = earlier knockout round. -/
def roundOrderTable : List (List Char × Int) :=
  [(s2l "128>64", 7), (s2l "64>32", 6), (s2l "32>16", 5), (s2l "16>8", 4),
   (s2l "8>4", 3), (s2l "4>2", 2), (s2l "2>1", 1)]

/-- `getRoundOrder`: table lookup on the trimmed label, `-1` otherwise. -/
def getRoundOrder (round : List Char) : Int :=
  match roundOrderTable.find? (fun e => e.1 == jsTrim round) with
  | some e => e.2
  | none => -1

/-- Issue severity of a `ValidationIssue`. -/
inductive IssueType
  | error
  | warning
deriving DecidableEq

/-- A `ValidationIssue` (player/tournament/details fields omitted; the rule
tag and the affected match ids are what the claims inspect). -/
structure Issue where
  itype : IssueType
  rule : List Char
  matchIds : List Int
deriving DecidableEq

/-- Stable insertion step for descending order on `key`, modelling the stable
JS `sort((a, b) => getRoundOrder(b.round) - getRoundOrder(a.round))`. -/
def insertDesc (key : StoredMatch → Int) (x : StoredMatch) :
    List StoredMatch → List StoredMatch
  | [] => [x]
  | y :: ys => if key y < key x then x :: y :: ys else y :: insertDesc key x ys

/-- Stable insertion sort, descending on `key`. -/
def sortDesc (key : StoredMatch → Int) : List StoredMatch → List StoredMatch
  | [] => []
  | x :: xs => insertDesc key x (sortDesc key xs)

/-- The Rule 3 tag string. -/
def rule3Name : List Char := s2l "RULE_3_NO_MATCH_AFTER_LOSS"

/-- One iteration of the Rule 3 loop: state is (issues, lastLossRound,
lastLossRoundOrder). -/
def rule3Step (playerId : Int) (acc : List Issue × Option (List Char) × Int)
    (m : StoredMatch) : List Issue × Option (List Char) × Int :=
  let roundOrder := getRoundOrder m.round
  let isWinner := m.winnerId == some playerId
  let issues :=
    if acc.2.1 ≠ none ∧ roundOrder < acc.2.2 then
      acc.1 ++ [⟨IssueType.error, rule3Name, [m.id]⟩]
    else acc.1
  if isWinner then (issues, acc.2.1, acc.2.2)
  else (issues, some m.round, roundOrder)

/-- Rule 3 of `TournamentIntegrityValidator.validatePlayerTournament`: filter
to knockout rounds, sort by round order descending (earliest stage first),
then scan tracking the last loss. -/
def rule3Issues (playerId : Int) (playerMatches : List StoredMatch) : List Issue :=
  let knockoutMatches :=
    sortDesc (fun m => getRoundOrder m.round)
      (playerMatches.filter fun m => decide (getRoundOrder m.round > 0))
  (knockoutMatches.foldl (rule3Step playerId) ([], none, -1)).1

theorem mem_insertDesc (key : StoredMatch → Int) (x a : StoredMatch)
    (l : List StoredMatch) : a ∈ insertDesc key x l ↔ a = x ∨ a ∈ l := by
  induction l with
  | nil => simp [insertDesc]
  | cons y ys ih =>
    by_cases h : key y < key x
    · simp [insertDesc, h]
    · simp [insertDesc, h, ih]
      tauto

theorem mem_sortDesc (key : StoredMatch → Int) (a : StoredMatch)
    (l : List StoredMatch) : a ∈ sortDesc key l ↔ a ∈ l := by
  induction l with
  | nil => simp [sortDesc]
  | cons x xs ih =>
    simp [sortDesc, mem_insertDesc, ih]

theorem pairwise_insertDesc (key : StoredMatch → Int) (x : StoredMatch)
    (l : List StoredMatch)
    (h : l.Pairwise fun a b => key b ≤ key a) :
    (insertDesc key x l).Pairwise fun a b => key b ≤ key a := by
  induction l with
  | nil => simp [insertDesc]
  | cons y ys ih =>
    rcases List.pairwise_cons.mp h with ⟨hy, hys⟩
    by_cases hk : key y < key x
    · rw [insertDesc, if_pos hk]
      refine List.pairwise_cons.mpr ⟨?_, h⟩
      intro z hz
      rcases List.mem_cons.mp hz with rfl | hz2
      · omega
      · have := hy z hz2
        omega
    · rw [insertDesc, if_neg hk]
      refine List.pairwise_cons.mpr ⟨?_, ih hys⟩
      intro z hz
      rcases (mem_insertDesc key x z ys).mp hz with rfl | hz2
      · omega
      · exact hy z hz2

theorem pairwise_sortDesc (key : StoredMatch → Int) (l : List StoredMatch) :
    (sortDesc key l).Pairwise fun a b => key b ≤ key a := by
  induction l with
  | nil => simp [sortDesc]
  | cons x xs ih => exact pairwise_insertDesc key x _ ih


/-- What every Rule 3 issue must look like: an ERROR with the Rule 3 tag,
naming a knockout match strictly later in the bracket than some knockout
round the player lost. -/
def issueOk (pid : Int) (ms : List StoredMatch) (i : Issue) : Prop :=
  i.itype = IssueType.error ∧ i.rule = rule3Name ∧
  ∃ m ∈ ms, ∃ l ∈ ms, getRoundOrder m.round > 0 ∧ getRoundOrder l.round > 0 ∧
    l.winnerId ≠ some pid ∧ getRoundOrder m.round < getRoundOrder l.round ∧
    i.matchIds = [m.id]

/-- Scan-state invariant: a recorded last loss comes from a knockout match of
`ms` that the player did not win, at the recorded round order. -/
def lossOk (pid : Int) (ms : List StoredMatch)
    (st : List Issue × Option (List Char) × Int) : Prop :=
  st.2.1 ≠ none → ∃ l ∈ ms, getRoundOrder l.round > 0 ∧
    l.winnerId ≠ some pid ∧ getRoundOrder l.round = st.2.2

theorem rule3_fold_sound (pid : Int) (ms : List StoredMatch) :
    ∀ (L : List StoredMatch) (acc : List Issue × Option (List Char) × Int),
    (∀ m ∈ L, m ∈ ms ∧ getRoundOrder m.round > 0) →
    (∀ i ∈ acc.1, issueOk pid ms i) → lossOk pid ms acc →
    ∀ i ∈ (L.foldl (rule3Step pid) acc).1, issueOk pid ms i := by
  intro L
  induction L with
  | nil => intro acc _ hi _ i hmem; exact hi i hmem
  | cons x xs ih =>
    intro acc hL hi hl
    have hxm : x ∈ ms ∧ getRoundOrder x.round > 0 := hL x (List.mem_cons_self _ _)
    rw [List.foldl_cons]
    apply ih _ (fun m hm => hL m (List.mem_cons_of_mem _ hm))
    · intro i hmem
      rw [rule3Step] at hmem
      by_cases hc : acc.2.1 ≠ none ∧ getRoundOrder x.round < acc.2.2
      · have hissues : ∀ j, j ∈ acc.1 ++ [⟨IssueType.error, rule3Name, [x.id]⟩] →
            issueOk pid ms j := by
          intro j hj
          rcases List.mem_append.mp hj with hj1 | hj1
          · exact hi j hj1
          · rcases hl hc.1 with ⟨l, hlmem, hlk, hlw, hlo⟩
            simp only [List.mem_singleton] at hj1
            subst hj1
            exact ⟨rfl, rfl, x, hxm.1, l, hlmem, hxm.2, hlk, hlw, by omega, rfl⟩
        split at hmem
        · exact hissues i (by simpa [if_pos hc] using hmem)
        · exact hissues i (by simpa [if_pos hc] using hmem)
      · split at hmem
        · exact hi i (by simpa [if_neg hc] using hmem)
        · exact hi i (by simpa [if_neg hc] using hmem)
    · rw [rule3Step]
      by_cases hw : (x.winnerId == some pid) = true
      · simp only [hw, if_true]
        intro hne
        exact hl hne
      · rw [if_neg hw]
        intro _
        refine ⟨x, hxm.1, hxm.2, ?_, rfl⟩
        intro heq
        exact hw (by simp [heq])

theorem rule3_fold_complete (pid : Int) :
    ∀ (L : List StoredMatch) (acc : List Issue × Option (List Char) × Int),
    L.Pairwise (fun a b => getRoundOrder b.round ≤ getRoundOrder a.round) →
    (acc.1 ≠ [] ∨
     (acc.2.1 ≠ none ∧ ∃ m ∈ L, getRoundOrder m.round < acc.2.2) ∨
     (∃ m ∈ L, ∃ l ∈ L, l.winnerId ≠ some pid ∧
        getRoundOrder m.round < getRoundOrder l.round)) →
    (L.foldl (rule3Step pid) acc).1 ≠ [] := by
  intro L
  induction L with
  | nil =>
    intro acc _ hdisj
    rcases hdisj with h | ⟨_, m, hm, _⟩ | ⟨m, hm, _⟩
    · exact h
    · exact absurd hm (List.not_mem_nil m)
    · exact absurd hm (List.not_mem_nil m)
  | cons x xs ih =>
    intro acc hpw hdisj
    rcases List.pairwise_cons.mp hpw with ⟨hx, hxs⟩
    rw [List.foldl_cons]
    have hne_of_fire : (acc.2.1 ≠ none ∧ getRoundOrder x.round < acc.2.2) →
        (rule3Step pid acc x).1 ≠ [] := by
      intro hc
      rw [rule3Step]
      split <;> simp [if_pos hc]
    have hkeep : acc.1 ≠ [] → (rule3Step pid acc x).1 ≠ [] := by
      intro h
      rw [rule3Step]
      split <;> (split <;> simp_all)
    have hstate_w : (x.winnerId == some pid) = true →
        (rule3Step pid acc x).2 = acc.2 := by
      intro hw
      rw [rule3Step, if_pos hw]
    have hstate_l : (x.winnerId == some pid) = false →
        (rule3Step pid acc x).2 = (some x.round, getRoundOrder x.round) := by
      intro hw
      rw [rule3Step, if_neg (by simp [hw])]
    rcases hdisj with h | ⟨hne, m, hm, hlt⟩ | ⟨m, hm, l, hl, hlw, hlt⟩
    · exact ih _ hxs (Or.inl (hkeep h))
    · rcases List.mem_cons.mp hm with rfl | hm2
      · exact ih _ hxs (Or.inl (hne_of_fire ⟨hne, hlt⟩))
      · by_cases hx2 : getRoundOrder x.round < acc.2.2
        · exact ih _ hxs (Or.inl (hne_of_fire ⟨hne, hx2⟩))
        · by_cases hw : (x.winnerId == some pid) = true
          · refine ih _ hxs (Or.inr (Or.inl ⟨?_, m, hm2, ?_⟩))
            · rw [hstate_w hw]; exact hne
            · rw [hstate_w hw]; exact hlt
          · have hw2 : (x.winnerId == some pid) = false := by
              cases h2 : (x.winnerId == some pid)
              · rfl
              · exact absurd h2 hw
            refine ih _ hxs (Or.inr (Or.inl ⟨?_, m, hm2, ?_⟩))
            · rw [hstate_l hw2]; simp
            · rw [hstate_l hw2]
              have := hx m hm2
              omega
    · rcases List.mem_cons.mp hl with heq | hl2
      · have hw2 : (x.winnerId == some pid) = false := by
          cases h2 : (x.winnerId == some pid)
          · rfl
          · rw [heq] at hlw
            exact absurd (by simpa using h2) hlw
        have hm2 : m ∈ xs := by
          rcases List.mem_cons.mp hm with heq2 | h2
          · rw [heq2, heq] at hlt
            omega
          · exact h2
        refine ih _ hxs (Or.inr (Or.inl ⟨?_, m, hm2, ?_⟩))
        · rw [hstate_l hw2]; simp
        · rw [hstate_l hw2]
          rw [heq] at hlt
          exact hlt
      · have hm2 : m ∈ xs := by
          rcases List.mem_cons.mp hm with rfl | h2
          · have := hx l hl2
            omega
          · exact h2
        exact ih _ hxs (Or.inr (Or.inr ⟨m, hm2, l, hl2, hlw, hlt⟩))


/-- Claim C8: every Rule 3 issue is an ERROR naming a knockout match strictly
later in the bracket (strictly smaller round order) than some knockout round
the player is recorded as losing, and at least one such issue is emitted
exactly when such a pair of stored matches exists; same-round and
non-knockout matches never trigger the rule. -/
theorem C8_no_match_after_loss (pid : Int) (ms : List StoredMatch) :
    (∀ i ∈ rule3Issues pid ms, i.itype = IssueType.error ∧ i.rule = rule3Name ∧
        ∃ m ∈ ms, ∃ l ∈ ms, getRoundOrder m.round > 0 ∧ getRoundOrder l.round > 0 ∧
          l.winnerId ≠ some pid ∧ getRoundOrder m.round < getRoundOrder l.round ∧
          i.matchIds = [m.id]) ∧
    (rule3Issues pid ms ≠ [] ↔
      ∃ m ∈ ms, ∃ l ∈ ms, getRoundOrder m.round > 0 ∧ getRoundOrder l.round > 0 ∧
        l.winnerId ≠ some pid ∧ getRoundOrder m.round < getRoundOrder l.round) := by
  have hLmem : ∀ m ∈ sortDesc (fun m => getRoundOrder m.round)
      (ms.filter fun m => decide (getRoundOrder m.round > 0)),
      m ∈ ms ∧ getRoundOrder m.round > 0 := by
    intro m hm
    rw [mem_sortDesc] at hm
    rcases List.mem_filter.mp hm with ⟨h1, h2⟩
    exact ⟨h1, of_decide_eq_true h2⟩
  have hsound : ∀ i ∈ rule3Issues pid ms, issueOk pid ms i := by
    intro i hi
    rw [rule3Issues] at hi
    exact rule3_fold_sound pid ms _ ([], none, -1) hLmem
      (by intro j hj; exact absurd hj (List.not_mem_nil j))
      (by intro h; exact absurd rfl h) i hi
  constructor
  · intro i hi
    exact hsound i hi
  · constructor
    · intro hne
      rcases List.exists_mem_of_ne_nil _ hne with ⟨i, hi⟩
      rcases hsound i hi with ⟨_, _, m, hm, l, hl, h1, h2, h3, h4, _⟩
      exact ⟨m, hm, l, hl, h1, h2, h3, h4⟩
    · rintro ⟨m, hm, l, hl, h1, h2, h3, h4⟩
      rw [rule3Issues]
      apply rule3_fold_complete pid _ ([], none, -1)
        (pairwise_sortDesc _ _)
      refine Or.inr (Or.inr ⟨m, ?_, l, ?_, h3, h4⟩)
      · rw [mem_sortDesc]
        exact List.mem_filter.mpr ⟨hm, decide_eq_true h1⟩
      · rw [mem_sortDesc]
        exact List.mem_filter.mpr ⟨hl, decide_eq_true h2⟩

/-- A knockout loss in round 8>4. -/
def sampleLoss : StoredMatch :=
  { id := 1, round := s2l "8>4", player1Id := some 9, player2Id := some 5,
    winnerId := some 9 }

/-- A later-stage match (4>2) for the same player. -/
def sampleLater : StoredMatch :=
  { id := 2, round := s2l "4>2", player1Id := some 5, player2Id := some 7,
    winnerId := some 5 }

/-- Witness for C8: a loss in 8>4 plus a stored 4>2 match (spec scenario 5)
makes the rule fire. -/
theorem C8_no_match_after_loss_witness :
    rule3Issues 5 [sampleLoss, sampleLater] ≠ [] :=
  (C8_no_match_after_loss 5 [sampleLoss, sampleLater]).2.mpr
    ⟨sampleLater, by decide, sampleLoss, by decide, by decide, by decide,
      by decide, by decide⟩

end CzTenis
